import Mathlib

/-
Verification development for the condition-tree engine (src/conditions.py) and
the proximity fuzzy matcher (src/fuzzy_matcher.py) of IMMICHDynamicAlbums.

Modelling conventions:
- Python `None` becomes `Option.none`; Python truthiness of strings/lists/numbers
  is modelled explicitly (empty string, empty list and the number 0 are falsy).
- Asset-id sets are `Finset String`; the search oracle `client.search_assets`
  is a function from the built search parameters to a `Finset String`; the
  metadata endpoint `client.get_asset_metadata` is `String → Option RawAsset`
  (`none` models a per-asset fetch failure, which the code catches and drops).
- Evaluation returns the result set together with the number of search-oracle
  calls performed, so that "no oracle call" claims are statable.
- Timestamps are pre-parsed to rationals (seconds); GPS coordinates and the
  time window are rationals.  `list(set(a) & set(b))` is modelled as a
  deduplicated filter (same members and same emptiness; Python leaves the
  order unspecified).
-/

/-- Leaf filter record, mirroring `FilterCondition` in src/conditions.py. -/
structure FilterCondition where
  is_favorite : Option Bool := none
  asset_types : Option (List String) := none
  camera_make : Option String := none
  camera_model : Option String := none
  person_ids : Option (List String) := none
  include_tags : Option (List String) := none
  exclude_tags : Option (List String) := none
  resolution : Option (List (Nat × Nat)) := none
deriving DecidableEq

/-- Condition tree, mirroring `ConditionNode` (tags LEAF / AND / OR).
`LEAF` always carries a condition (the constructor validates this). -/
inductive ConditionNode where
  | leaf : FilterCondition → ConditionNode
  | and : List ConditionNode → ConditionNode
  | or : List ConditionNode → ConditionNode

/-- Python truthiness of an optional string (None and the empty string are falsy). -/
def strTruthy : Option String → Bool
  | none => false
  | some s => !s.isEmpty

/-- Python truthiness of an optional string list (None and `[]` are falsy). -/
def listTruthyS : Option (List String) → Bool
  | none => false
  | some l => !l.isEmpty

/-- Python truthiness of an optional resolution list. -/
def listTruthyR : Option (List (Nat × Nat)) → Bool
  | none => false
  | some l => !l.isEmpty

/-- Mirrors `FilterCondition.has_filters`: any field is not None. -/
def hasFilters (c : FilterCondition) : Bool :=
  c.is_favorite.isSome || c.asset_types.isSome || c.camera_make.isSome ||
  c.camera_model.isSome || c.person_ids.isSome || c.include_tags.isSome ||
  c.exclude_tags.isSome || c.resolution.isSome

/-- Outcome of merging one child condition into the accumulator inside
`_combine_and_leaves`: merge conflict (`return None`), empty asset-type
intersection (return the empty leaf), or the updated accumulator. -/
inductive MergeRes where
  | fail
  | empty
  | ok (acc : FilterCondition)

/-- Sequencing of per-field merge stages (a later stage runs only if the
earlier ones neither failed nor short-circuited). -/
def MergeRes.bind (r : MergeRes) (f : FilterCondition → MergeRes) : MergeRes :=
  match r with
  | .fail => .fail
  | .empty => .empty
  | .ok a => f a

/-- Stage for `is_favorite`: any second non-None favorite fails the merge
(the code does not compare the values). -/
def mergeFav (c acc : FilterCondition) : MergeRes :=
  match c.is_favorite with
  | none => .ok acc
  | some b =>
    match acc.is_favorite with
    | some _ => .fail
    | none => .ok { acc with is_favorite := some b }

/-- Mirrors `list(set(a) & set(b))`: same members and emptiness; order is a model choice
because Python set iteration order is unspecified. -/
def intersectTypes (a b : List String) : List String :=
  (a.filter (fun t => b.contains t)).dedup

/-- Stage for `asset_types`: intersect; an empty intersection short-circuits the
whole combination to an empty-`FilterCondition` leaf. -/
def mergeTypes (c acc : FilterCondition) : MergeRes :=
  match c.asset_types with
  | none => .ok acc
  | some ts =>
    match acc.asset_types with
    | none => .ok { acc with asset_types := some ts }
    | some as0 =>
      let i := intersectTypes as0 ts
      if i.isEmpty then .empty else .ok { acc with asset_types := some i }

/-- Stage for `camera_make` (truthiness checks as in the code). -/
def mergeMake (c acc : FilterCondition) : MergeRes :=
  if strTruthy c.camera_make then
    if strTruthy acc.camera_make && acc.camera_make ≠ c.camera_make then .fail
    else .ok { acc with camera_make := c.camera_make }
  else .ok acc

/-- Stage for `camera_model`. -/
def mergeModel (c acc : FilterCondition) : MergeRes :=
  if strTruthy c.camera_model then
    if strTruthy acc.camera_model && acc.camera_model ≠ c.camera_model then .fail
    else .ok { acc with camera_model := c.camera_model }
  else .ok acc

/-- Stage for `person_ids`: a truthy (non-empty) person list fails the merge when
the accumulator already holds one; an untruthy one (None or the empty
sentinel) is skipped by the `if cond.person_ids:` guard. -/
def mergePerson (c acc : FilterCondition) : MergeRes :=
  if listTruthyS c.person_ids then
    if acc.person_ids ≠ none then .fail
    else .ok { acc with person_ids := c.person_ids }
  else .ok acc

/-- One iteration of the `for child in self.children` loop of
`_combine_and_leaves` (field order as in the code; `resolution` and the tag
lists are not merged by the code). -/
def combineStep (acc c : FilterCondition) : MergeRes :=
  ((((mergeFav c acc).bind (mergeTypes c)).bind (mergeMake c)).bind
    (mergeModel c)).bind (mergePerson c)

/-- The whole loop of `_combine_and_leaves` over the child conditions. -/
def foldSteps (acc : FilterCondition) : List FilterCondition → MergeRes
  | [] => .ok acc
  | c :: rest =>
    match combineStep acc c with
    | .fail => .fail
    | .empty => .empty
    | .ok a => foldSteps a rest

/-- Condition of a LEAF node, if any. -/
def getLeafCond : ConditionNode → Option FilterCondition
  | .leaf c => some c
  | _ => none

def isLeafNode : ConditionNode → Bool
  | .leaf _ => true
  | _ => false

/-- Mirrors `ConditionNode._combine_and_leaves`: `none` models the Python `return None`
(merge failed / not all children are leaves). -/
def combineAndLeaves (cs : List ConditionNode) : Option ConditionNode :=
  if cs.all isLeafNode then
    match foldSteps {} (cs.filterMap getLeafCond) with
    | .fail => none
    | .empty => some (.leaf {})
    | .ok a => some (.leaf a)
  else none

/-- One-level flattening of AND children into an AND parent (optimization 1). -/
def flattenAnd : List ConditionNode → List ConditionNode
  | [] => []
  | .and gs :: rest => gs ++ flattenAnd rest
  | c :: rest => c :: flattenAnd rest

/-- One-level flattening of OR children into an OR parent. -/
def flattenOr : List ConditionNode → List ConditionNode
  | [] => []
  | .or gs :: rest => gs ++ flattenOr rest
  | c :: rest => c :: flattenOr rest

mutual
/-- Mirrors `ConditionNode.optimize`: children first, then same-type flattening, then
(AND only) leaf combination, then single/zero-child collapse. -/
def optimize : ConditionNode → ConditionNode
  | .leaf c => .leaf c
  | .and cs =>
    let cs2 := flattenAnd (optimizeList cs)
    match combineAndLeaves cs2 with
    | some n => n
    | none =>
      match cs2 with
      | [c] => c
      | [] => .leaf {}
      | _ => .and cs2
  | .or cs =>
    let cs2 := flattenOr (optimizeList cs)
    match cs2 with
    | [c] => c
    | [] => .leaf {}
    | _ => .or cs2
/-- Mirrors `[child.optimize() for child in self.children]`. -/
def optimizeList : List ConditionNode → List ConditionNode
  | [] => []
  | c :: rest => optimize c :: optimizeList rest
end

/-- The search parameters handed to `client.search_assets` by
`_evaluate_leaf` (date filters merged with the own constraints of the leaf). -/
structure SearchParams where
  dateFilters : List (String × String)
  is_favorite : Option Bool
  asset_types : Option (List String)
  camera_make : Option String
  camera_model : Option String
  include_people_ids : Option (List String)
deriving DecidableEq

/-- Asset record returned by `client.get_asset_metadata`, with the fields the
core reads.  Timestamps are pre-parsed (a string that is absent or fails to
parse becomes `none`). -/
structure RawAsset where
  id : String := ""
  dateTimeOriginal : Option ℚ := none
  fileCreatedAt : Option ℚ := none
  fileModifiedAt : Option ℚ := none
  latitude : Option ℚ := none
  longitude : Option ℚ := none
  exifImageWidth : Option Nat := none
  exifImageHeight : Option Nat := none
  originalWidth : Option Nat := none
  originalHeight : Option Nat := none

/-- The `originalWidth`/`originalHeight` fallback of
`ResolutionFilter._extract_resolution` (0 is falsy in Python). -/
def extractOrig (a : RawAsset) : Option (Nat × Nat) :=
  match a.originalWidth, a.originalHeight with
  | some w, some h => if w ≠ 0 && h ≠ 0 then some (w, h) else none
  | _, _ => none

/-- Mirrors `ResolutionFilter._extract_resolution`: EXIF dimensions preferred,
container dimensions as fallback. -/
def extractResolution (a : RawAsset) : Option (Nat × Nat) :=
  match a.exifImageWidth, a.exifImageHeight with
  | some w, some h => if w ≠ 0 && h ≠ 0 then some (w, h) else extractOrig a
  | _, _ => extractOrig a

/-- Does a single asset match the resolution allowlist (`check_single_asset`)?
A failed metadata fetch (`meta a = none`) is a non-match. -/
def matchesResolution (meta : String → Option RawAsset)
    (targets : List (Nat × Nat)) (a : String) : Bool :=
  match (meta a).bind extractResolution with
  | some r => targets.contains r
  | none => false

/-- Mirrors `ResolutionFilter.filter_by_resolution`; the second component counts the
metadata fetches issued (one per candidate asset unless short-circuited). -/
def filterByResolution (meta : String → Option RawAsset)
    (asset_ids : Finset String) (target_resolutions : List (Nat × Nat)) :
    Finset String × Nat :=
  if asset_ids = ∅ ∨ target_resolutions = [] then (∅, 0)
  else (asset_ids.filter (fun a => matchesResolution meta target_resolutions a),
        asset_ids.card)

/-- Mirrors `ConditionNode._evaluate_leaf`; the second component counts search-oracle
calls (`client.search_assets`). -/
def evalLeaf (oracle : SearchParams → Finset String)
    (meta : String → Option RawAsset) (cond : FilterCondition)
    (base : Option (Finset String)) (df : List (String × String)) :
    Finset String × Nat :=
  if hasFilters cond then
    if cond.person_ids = some [] then (∅, 0)
    else
      let params : SearchParams :=
        { dateFilters := df
          is_favorite := cond.is_favorite
          asset_types := cond.asset_types
          camera_make := if strTruthy cond.camera_make then cond.camera_make else none
          camera_model := if strTruthy cond.camera_model then cond.camera_model else none
          include_people_ids := cond.person_ids }
      let ids0 := oracle params
      let ids1 := match base with
        | some b => ids0 ∩ b
        | none => ids0
      let ids2 :=
        if listTruthyR cond.resolution ∧ ids1 ≠ ∅ then
          (filterByResolution meta ids1 (cond.resolution.getD [])).1
        else ids1
      (ids2, 1)
  else (base.getD ∅, 0)

mutual
/-- Mirrors `ConditionNode.evaluate` (result set, number of search-oracle calls). -/
def evaluate (oracle : SearchParams → Finset String)
    (meta : String → Option RawAsset) :
    ConditionNode → Option (Finset String) → List (String × String) →
    Finset String × Nat
  | .leaf c, base, df => evalLeaf oracle meta c base df
  | .and cs, base, df =>
    match cs with
    | [] => (∅, 0)
    | c :: rest =>
      let r := evaluate oracle meta c base df
      if r.1 = ∅ then (∅, r.2)
      else evalAndAux oracle meta rest r.1 r.2 base df
  | .or cs, base, df => evalOrList oracle meta cs base df
/-- The AND loop after the first child: intersect, early-exit on empty. -/
def evalAndAux (oracle : SearchParams → Finset String)
    (meta : String → Option RawAsset) :
    List ConditionNode → Finset String → Nat → Option (Finset String) →
    List (String × String) → Finset String × Nat
  | [], acc, k, _, _ => (acc, k)
  | c :: rest, acc, k, base, df =>
    let r := evaluate oracle meta c base df
    let acc2 := acc ∩ r.1
    if acc2 = ∅ then (∅, k + r.2)
    else evalAndAux oracle meta rest acc2 (k + r.2) base df
/-- The OR loop: union of all children (no short-circuit).  The Python loop
accumulates `result |= child`, which yields the same set and call count. -/
def evalOrList (oracle : SearchParams → Finset String)
    (meta : String → Option RawAsset) :
    List ConditionNode → Option (Finset String) → List (String × String) →
    Finset String × Nat
  | [], _, _ => (∅, 0)
  | c :: rest, base, df =>
    let r := evaluate oracle meta c base df
    let r2 := evalOrList oracle meta rest base df
    (r.1 ∪ r2.1, r.2 + r2.2)
end

/-- Is this node not an AND node? -/
def notAndNode : ConditionNode → Bool
  | .and _ => false
  | _ => true

/-- Is this node not an OR node? -/
def notOrNode : ConditionNode → Bool
  | .or _ => false
  | _ => true

mutual
/-- Fixed-point characterisation of `optimize` output: leaves; AND nodes with
at least two optimized non-AND children on which leaf combination fails; OR
nodes with at least two optimized non-OR children. -/
def isOptimized : ConditionNode → Bool
  | .leaf _ => true
  | .and cs =>
    allOptimized cs && decide (2 ≤ cs.length) && cs.all notAndNode &&
      (combineAndLeaves cs).isNone
  | .or cs => allOptimized cs && decide (2 ≤ cs.length) && cs.all notOrNode
def allOptimized : List ConditionNode → Bool
  | [] => true
  | c :: rest => isOptimized c && allOptimized rest
end

mutual
/-- Trees without AND nodes (only OR connectives and leaves). -/
def andFree : ConditionNode → Bool
  | .leaf _ => true
  | .and _ => false
  | .or cs => allAndFree cs
def allAndFree : List ConditionNode → Bool
  | [] => true
  | c :: rest => andFree c && allAndFree rest
end

mutual
/-- Well-formedness enforced by the `ConditionNode` constructor: every AND/OR
node has at least one child. -/
def wfNode : ConditionNode → Bool
  | .leaf _ => true
  | .and cs => !cs.isEmpty && allWf cs
  | .or cs => !cs.isEmpty && allWf cs
def allWf : List ConditionNode → Bool
  | [] => true
  | c :: rest => wfNode c && allWf rest
end

/-- Leaf-level keys recognised by `_parse_leaf_condition` (camera and people
sub-dicts inlined; timestamps of the `resolution.include` list kept as pairs). -/
structure LeafConfig where
  is_favorite : Option Bool := none
  asset_types : Option (List String) := none
  camera_make : Option String := none
  camera_model : Option String := none
  people_include : Option (List String) := none
  tags_include : Option (List String) := none
  tags_exclude : Option (List String) := none
  resolution_include : Option (List (Nat × Nat)) := none

/-- A configuration mapping: it may carry an "and" key, an "or" key, and leaf
keys (all simultaneously, as a Python dict can). -/
inductive Config where
  | mk : Option (List Config) → Option (List Config) → LeafConfig → Config

def Config.andKey : Config → Option (List Config)
  | .mk a _ _ => a

def Config.orKey : Config → Option (List Config)
  | .mk _ o _ => o

def Config.leafKeys : Config → LeafConfig
  | .mk _ _ l => l

/-- Mirrors `ConditionNode._parse_leaf_condition` (the resolver is the injected
`people_resolver`; `none` models passing no resolver). -/
def parseLeafCondition (resolver : Option (List String → List String))
    (l : LeafConfig) : FilterCondition :=
  { is_favorite := l.is_favorite
    asset_types := l.asset_types.map (fun ts => ts.map String.toUpper)
    camera_make := l.camera_make
    camera_model := l.camera_model
    person_ids :=
      match l.people_include, resolver with
      | some inc, some res => if inc.isEmpty then none else some (res inc)
      | _, _ => none
    include_tags := l.tags_include
    exclude_tags := l.tags_exclude
    resolution :=
      match l.resolution_include with
      | some rs => if rs.isEmpty then none else some rs
      | none => none }

mutual
/-- Mirrors `ConditionNode.from_config`: the "and" key is checked first, then "or",
otherwise the mapping is parsed as a leaf.  Construction errors
(`ValueError`) become `Except.error`. -/
def fromConfig (resolver : Option (List String → List String)) :
    Config → Except String ConditionNode
  | .mk (some ops) _ _ =>
    match fromConfigList resolver ops with
    | .error e => .error e
    | .ok cs =>
      if cs.isEmpty then .error ("and node must have at least one child")
      else .ok (.and cs)
  | .mk none (some ops) _ =>
    match fromConfigList resolver ops with
    | .error e => .error e
    | .ok cs =>
      if cs.isEmpty then .error ("or node must have at least one child")
      else .ok (.or cs)
  | .mk none none l => .ok (.leaf (parseLeafCondition resolver l))
/-- Mirrors `[cls.from_config(operand, ...) for operand in operands]`: left to right,
first failure propagates. -/
def fromConfigList (resolver : Option (List String → List String)) :
    List Config → Except String (List ConditionNode)
  | [] => .ok []
  | c :: rest =>
    match fromConfig resolver c with
    | .error e => .error e
    | .ok n =>
      match fromConfigList resolver rest with
      | .error e => .error e
      | .ok ns => .ok (n :: ns)
end

/-- Metadata used by the fuzzy matcher (`AssetMetadata` dataclass). -/
structure AssetMetadata where
  asset_id : String
  timestamp : Option ℚ
  latitude : Option ℚ
  longitude : Option ℚ

/-- Mirrors `FuzzyMatcher._extract_metadata`: timestamp priority EXIF capture time,
then file-creation, then file-modification; `none` when no timestamp is
available (the asset is dropped from the seed/candidate set). -/
def extractMetadata (a : RawAsset) : Option AssetMetadata :=
  match a.dateTimeOriginal with
  | some t => some ⟨a.id, some t, a.latitude, a.longitude⟩
  | none =>
    match a.fileCreatedAt with
    | some t => some ⟨a.id, some t, a.latitude, a.longitude⟩
    | none =>
      match a.fileModifiedAt with
      | some t => some ⟨a.id, some t, a.latitude, a.longitude⟩
      | none => none

/-- Mirrors `FuzzyMatcher._fetch_asset_metadata`: fetch each asset, drop failures and
assets without usable timestamps. -/
def fetchAssetMetadata (fetch : String → Option RawAsset)
    (ids : List String) : List AssetMetadata :=
  ids.filterMap (fun i => (fetch i).bind extractMetadata)

/-- Python truthiness of an optional rational (None and 0 are falsy); this is
what `if candidate.latitude and ...` tests on GPS coordinates. -/
def qTruthy : Option ℚ → Bool
  | none => false
  | some q => decide (q ≠ 0)

/-- Mirrors `abs(...)` on the time difference, written out so that it evaluates. -/
def qAbs (q : ℚ) : ℚ := if q < 0 then -q else q

/-- One seed comparison of `_filter_by_proximity`: the candidate qualifies via
this seed if the seed has a timestamp, the time difference is within the
window, and, only when all four GPS coordinates are truthy, the distance is
within the radius. -/
def seedClose {R : Type} [LinearOrder R] (dist : ℚ → ℚ → ℚ → ℚ → R)
    (windowSec : ℚ) (radius : R) (c s : AssetMetadata) : Bool :=
  match c.timestamp, s.timestamp with
  | some tc, some ts0 =>
    if qAbs (tc - ts0) ≤ windowSec then
      if qTruthy c.latitude && qTruthy c.longitude &&
          qTruthy s.latitude && qTruthy s.longitude then
        match c.latitude, c.longitude, s.latitude, s.longitude with
        | some la, some lo, some sa, some so => decide (dist la lo sa so ≤ radius)
        | _, _, _, _ => true
      else true
    else false
  | _, _ => false

/-- Inner loop over the exact-match seeds (first qualifying seed suffices). -/
def anySeedClose {R : Type} [LinearOrder R] (dist : ℚ → ℚ → ℚ → ℚ → R)
    (windowSec : ℚ) (radius : R) (c : AssetMetadata) :
    List AssetMetadata → Bool
  | [] => false
  | s :: rest =>
    seedClose dist windowSec radius c s || anySeedClose dist windowSec radius c rest

/-- Outer loop of `_filter_by_proximity` over the candidate metadata. -/
def proximityLoop {R : Type} [LinearOrder R] (dist : ℚ → ℚ → ℚ → ℚ → R)
    (windowSec : ℚ) (radius : R) (exactMeta : List AssetMetadata) :
    List AssetMetadata → Finset String
  | [] => ∅
  | c :: rest =>
    let acc := proximityLoop dist windowSec radius exactMeta rest
    if anySeedClose dist windowSec radius c exactMeta then insert c.asset_id acc
    else acc

/-- Mirrors `FuzzyMatcher._filter_by_proximity` (candidate ids are fetched, then the
time/GPS loop runs). -/
def filterByProximity {R : Type} [LinearOrder R] (dist : ℚ → ℚ → ℚ → ℚ → R)
    (windowSec : ℚ) (radius : R) (fetch : String → Option RawAsset)
    (candidates : List String) (exactMeta : List AssetMetadata) : Finset String :=
  proximityLoop dist windowSec radius exactMeta (fetchAssetMetadata fetch candidates)

/-- Rule date boundaries (parsed), as read by the fuzzy matcher. -/
structure RuleDateFilters where
  taken_after : Option ℚ := none
  taken_before : Option ℚ := none
  created_after : Option ℚ := none
  created_before : Option ℚ := none

/-- Mirrors `FuzzyMatcher._calculate_time_boundaries`: expand the seed-timestamp span
by the window on both sides, clamp to the rule boundaries; raises
(`ValueError`) when no metadata entry carries a timestamp. -/
def calculateTimeBoundaries (windowSec : ℚ)
    (metadataList : List AssetMetadata) (df : RuleDateFilters) :
    Except String (ℚ × ℚ) :=
  match metadataList.filterMap (fun m => m.timestamp) with
  | [] => .error ("No valid timestamps found in metadata")
  | t :: rest =>
    let minT := rest.foldl min t
    let maxT := rest.foldl max t
    let start0 := minT - windowSec
    let end0 := maxT + windowSec
    let start1 := match df.taken_after with
      | some r => max start0 r
      | none => start0
    let end1 := match df.taken_before with
      | some r => min end0 r
      | none => end0
    let start2 := match df.created_after with
      | some r => max start1 r
      | none => start1
    let end2 := match df.created_before with
      | some r => min end1 r
      | none => end1
    .ok (start2, end2)

/-- Mirrors `FuzzyMatcher._query_candidates`: one date-window search, using the taken
date field iff the rule used one (oracle exceptions, which the code turns
into an empty set, are not modelled: the oracle is total). -/
def queryCandidates (searchOracle : Bool → ℚ → ℚ → Finset String)
    (startT endT : ℚ) (df : RuleDateFilters) : Finset String :=
  searchOracle (df.taken_after.isSome || df.taken_before.isSome) startT endT

/-- Mirrors `FuzzyMatcher.find_related_assets`; `sample` stands for `random.sample`
(applied only when more than `MAX_FUZZY_SEEDS = 50` seeds are given); the
result is the qualifying candidates minus the original exact matches. -/
def findRelatedAssets {R : Type} [LinearOrder R]
    (sample : List String → List String) (fetch : String → Option RawAsset)
    (searchOracle : Bool → ℚ → ℚ → Finset String)
    (dist : ℚ → ℚ → ℚ → ℚ → R) (windowSec : ℚ) (radius : R)
    (exactMatchIds : List String) (df : RuleDateFilters) :
    Except String (Finset String) :=
  if exactMatchIds.isEmpty then .ok ∅
  else
    let sampled := if 50 < exactMatchIds.length then sample exactMatchIds
      else exactMatchIds
    let exactMeta := fetchAssetMetadata fetch sampled
    if exactMeta.isEmpty then .ok ∅
    else
      match calculateTimeBoundaries windowSec exactMeta df with
      | .error e => .error e
      | .ok se =>
        let candidates := queryCandidates searchOracle se.1 se.2 df
        if candidates = ∅ then .ok ∅
        else
          .ok (filterByProximity dist windowSec radius fetch
                (candidates.sort (fun a b => a ≤ b)) exactMeta \
              exactMatchIds.toFinset)

/-- Mirrors `math.radians`. -/
noncomputable def radiansOf (x : ℚ) : ℝ := (x : ℝ) * Real.pi / 180

/-- Mirrors `FuzzyMatcher._haversine_distance`: spherical haversine with Earth radius
6,371,000 m (the float arithmetic is modelled over the reals). -/
noncomputable def haversineDistance (lat1 lon1 lat2 lon2 : ℚ) : ℝ :=
  let lat1r := radiansOf lat1
  let lon1r := radiansOf lon1
  let lat2r := radiansOf lat2
  let lon2r := radiansOf lon2
  let dlat := lat2r - lat1r
  let dlon := lon2r - lon1r
  let a := Real.sin (dlat / 2) ^ 2 +
    Real.cos lat1r * Real.cos lat2r * Real.sin (dlon / 2) ^ 2
  let c := 2 * Real.arcsin (Real.sqrt a)
  6371000 * c

/-! Concrete fixtures used by the counterexample, code-bug and witness
theorems below. -/

/-- Metadata endpoint that fails every fetch. -/
def metaNone : String → Option RawAsset := fun _ => none

/-- An oracle that answers the two single-type queries of `treeC2`. -/
def oracleC2 : SearchParams → Finset String := fun p =>
  if p.asset_types = some ["IMAGE"] then {"a1"}
  else if p.asset_types = some ["VIDEO"] then ({"b1"} : Finset String)
  else ∅

/-- AND of two leaves with disjoint asset-type allowlists. -/
def treeC2 : ConditionNode :=
  .and [.leaf { asset_types := some ["IMAGE"] },
        .leaf { asset_types := some ["VIDEO"] }]

/-- An oracle for which the merged favourite+make query differs from the
intersection of the two separate queries. -/
def oracleC1 : SearchParams → Finset String := fun p =>
  if p.camera_make = some "Apple" ∧ p.is_favorite = some true then ∅
  else ({"z"} : Finset String)

/-- AND of a favourite leaf and a camera-make leaf (merged by the optimizer). -/
def treeC1 : ConditionNode :=
  .and [.leaf { is_favorite := some true },
        .leaf { camera_make := some "Apple" }]

/-- Oracle returning the single asset "x" for every query. -/
def oracleC4 : SearchParams → Finset String := fun _ => ({"x"} : Finset String)

/-- Metadata endpoint reporting a 100 by 100 resolution for asset "x". -/
def metaC4 : String → Option RawAsset := fun a =>
  if a = "x" then
    some { id := "x", exifImageWidth := some 100, exifImageHeight := some 100 }
  else none

/-- AND of a favourite leaf and a resolution-constrained leaf. -/
def treeC4 : ConditionNode :=
  .and [.leaf { is_favorite := some true },
        .leaf { resolution := some [(1920, 1080)] }]

/-- AND of a leaf carrying the empty person-identifier sentinel and a leaf
with a non-empty person-identifier list. -/
def treeC5 : ConditionNode :=
  .and [.leaf { person_ids := some [] },
        .leaf { person_ids := some ["p1"] }]

/-- An asset whose metadata fetch succeeds but carries no usable timestamp. -/
def rawC3 : RawAsset := { id := "a", latitude := some 1, longitude := some 2 }

/-- Candidate asset on the equator (latitude 0, a falsy float in Python) at
longitude 180, with a usable timestamp. -/
def fetchC8 : String → Option RawAsset := fun i =>
  if i = "c" then
    some { id := "c", dateTimeOriginal := some 0, latitude := some 0,
           longitude := some 180 }
  else none

/-- Seed with GPS coordinates present (latitude 0, longitude 0). -/
def seedC8 : AssetMetadata := ⟨"s", some 0, some 0, some 0⟩

/-- Oracle used by witness theorems: matches favourites only. -/
def oracleW : SearchParams → Finset String := fun p =>
  if p.is_favorite = some true then ({"w1", "w2"} : Finset String) else ∅

/-- OR tree (no AND nodes) used by the C1 witness. -/
def treeW : ConditionNode :=
  .or [.or [.leaf { is_favorite := some true }], .leaf {}]

/-- Leaf condition carrying only the empty person-identifier sentinel plus
another active filter, used by the C7 witness. -/
def condW : FilterCondition :=
  { is_favorite := some true, person_ids := some [] }

/-- Leaf configuration requesting favourites, used by the C10 witness. -/
def leafCfgW : LeafConfig := { is_favorite := some true }

/-- Configuration mapping carrying both an "and" key and an "or" key. -/
def cfgBothW : Config :=
  .mk (some [.mk none none leafCfgW])
    (some [.mk none none {}, .mk none none {}]) {}

/-- Does this node carry a non-empty (truthy) person-identifier list? -/
def leafHasNonemptyPersons : ConditionNode → Bool
  | .leaf fc => listTruthyS fc.person_ids
  | _ => false

/-- Two leaves with distinct non-empty person lists (C5 witness input). -/
def leavesC5W : List ConditionNode :=
  [.leaf { person_ids := some ["a"] }, .leaf { person_ids := some ["b"] }]

/-- C2 (code bug): merging the AND of an IMAGE-only leaf and a VIDEO-only leaf
short-circuits to a leaf with an empty `FilterCondition`; evaluating that leaf
with a non-empty base set returns the base set (and 0 oracle calls), not the
empty set promised by the "no results possible" comment and the spec. -/
theorem empty_type_intersection_leaf_evaluates_to_base :
    optimize treeC2 = .leaf {} ∧
    evaluate oracleC2 metaNone treeC2 (some {"a1", "b1"}) [] = (∅, 2) ∧
    evaluate oracleC2 metaNone (optimize treeC2) (some {"a1", "b1"}) [] =
      ({"a1", "b1"}, 0) :=
  ⟨rfl, by decide, by decide⟩

/-- C4 (code bug): `_combine_and_leaves` never copies the `resolution` field,
so merging a favourite leaf with a resolution-constrained leaf yields a leaf
without any resolution constraint, and evaluation of the optimized tree
returns an asset the original tree rejects. -/
theorem combine_drops_resolution_constraint :
    optimize treeC4 = .leaf { is_favorite := some true } ∧
    (evaluate oracleC4 metaC4 treeC4 none []).1 = ∅ ∧
    (evaluate oracleC4 metaC4 (optimize treeC4) none []).1 = {"x"} :=
  ⟨rfl, by decide, by decide⟩

/-- C1 counterexample: for the oracle `oracleC1` the merged favourite+make
query returns a different set than the intersection of the two separate
queries, so `evaluate (optimize t) = evaluate t` fails for this oracle. -/
theorem optimize_eval_equiv_counterexample :
    (evaluate oracleC1 metaNone (optimize treeC1) none []).1 ≠
      (evaluate oracleC1 metaNone treeC1 none []).1 := by
  decide

/-- C3 counterexample: a seed whose metadata fetch succeeds but yields no
usable timestamp makes `find_related_assets` return `ok ∅` (a silent default),
not an error. -/
theorem findRelated_no_usable_timestamp_counterexample :
    findRelatedAssets (fun l => l) (fun _ => some rawC3) (fun _ _ _ => ∅)
      (fun _ _ _ _ => (0 : ℚ)) 14400 100 ["a"] {} = .ok ∅ :=
  rfl

/-- C5 counterexample: two leaves that both supply a person-identifier list
(one the empty sentinel, one non-empty) are nevertheless collapsed into a
single leaf, the sentinel being dropped. -/
theorem combine_person_sentinel_counterexample :
    optimize treeC5 = .leaf { person_ids := some ["p1"] } :=
  rfl

/-- C7: a leaf whose person-identifier list is present but empty evaluates to
the empty set with no search-oracle call, whatever the oracle, metadata
endpoint, base set, date filters and other fields. -/
theorem leaf_empty_person_sentinel_short_circuits
    (oracle : SearchParams → Finset String) (meta : String → Option RawAsset)
    (c : FilterCondition) (base : Option (Finset String))
    (df : List (String × String)) (h : c.person_ids = some []) :
    evaluate oracle meta (.leaf c) base df = (∅, 0) := by
  have hf : hasFilters c = true := by
    simp [hasFilters, h]
  simp [evaluate, evalLeaf, hf, h]

/-- Witness for C7 at a concrete leaf. -/
theorem leaf_empty_person_sentinel_short_circuits_witness :
    evaluate oracleW metaNone (.leaf condW) (some {"w1"}) [] = (∅, 0) :=
  leaf_empty_person_sentinel_short_circuits oracleW metaNone condW
    (some {"w1"}) [] rfl

/-- C10: a configuration mapping carrying both an "and" and an "or" key is
parsed through the "and" branch — the resulting node is the AND of the "and"
list, whatever the "or" entry holds, and no error is reported. -/
theorem fromConfig_and_key_precedence
    (resolver : Option (List String → List String)) (a : List Config)
    (o : Option (List Config)) (lf : LeafConfig) (cs : List ConditionNode)
    (h : fromConfigList resolver a = .ok cs) (h2 : cs ≠ []) :
    fromConfig resolver (.mk (some a) o lf) = .ok (.and cs) := by
  have h3 : cs.isEmpty = false := by
    cases cs with
    | nil => exact absurd rfl h2
    | cons x xs => rfl
  simp [fromConfig, h, h3]

/-- Witness for C10: with both keys present, the "or" entry is ignored. -/
theorem fromConfig_and_key_precedence_witness :
    fromConfig none cfgBothW =
      .ok (.and [.leaf (parseLeafCondition none leafCfgW)]) :=
  fromConfig_and_key_precedence none _ _ _ _ rfl (by simp)

/-- C9: `filter_by_resolution` keeps exactly the assets of the input set whose
extracted resolution (EXIF preferred, container fallback; fetch failures
dropped) is one of the target sizes, and empty inputs short-circuit with zero
metadata fetches. -/
theorem filterByResolution_spec (meta : String → Option RawAsset)
    (ids : Finset String) (ts : List (Nat × Nat)) :
    (∀ a, a ∈ (filterByResolution meta ids ts).1 ↔
      a ∈ ids ∧ ∃ r, (meta a).bind extractResolution = some r ∧ r ∈ ts) ∧
    (ids = ∅ ∨ ts = [] → (filterByResolution meta ids ts).2 = 0) := by
  by_cases h : ids = ∅ ∨ ts = []
  · constructor
    · intro a
      rw [filterByResolution, if_pos h]
      simp only [Finset.not_mem_empty, false_iff]
      rintro ⟨ha, r, hr, hrt⟩
      rcases h with h | h
      · rw [h] at ha
        exact Finset.not_mem_empty a ha
      · rw [h] at hrt
        exact List.not_mem_nil r hrt
    · intro _
      rw [filterByResolution, if_pos h]
  · constructor
    · intro a
      rw [filterByResolution, if_neg h]
      simp only [Finset.mem_filter]
      constructor
      · rintro ⟨ha, hm⟩
        refine ⟨ha, ?_⟩
        unfold matchesResolution at hm
        rcases hres : (meta a).bind extractResolution with _ | r
        · rw [hres] at hm
          exact absurd hm (by simp)
        · rw [hres] at hm
          exact ⟨r, rfl, by simpa using hm⟩
      · rintro ⟨ha, r, hr, hrt⟩
        refine ⟨ha, ?_⟩
        unfold matchesResolution
        rw [hr]
        simpa using hrt
    · intro hc
      exact absurd hc h

/-- Witness for C9 at concrete inputs (both the membership characterisation
and the fetch-free short-circuit). -/
theorem filterByResolution_spec_witness :
    ("x" ∈ (filterByResolution metaC4 {"x"} [(100, 100)]).1 ↔
      "x" ∈ ({"x"} : Finset String) ∧
      ∃ r, (metaC4 "x").bind extractResolution = some r ∧ r ∈ [(100, 100)]) ∧
    (filterByResolution metaC4 ∅ [(100, 100)]).2 = 0 :=
  ⟨(filterByResolution_spec metaC4 {"x"} [(100, 100)]).1 "x",
    (filterByResolution_spec metaC4 ∅ [(100, 100)]).2 (Or.inl rfl)⟩

/-- C3 (amended): when no seed yields a usable timestamp after the metadata
fetch, `find_related_assets` silently returns the empty set (the hard error
of `_calculate_time_boundaries` is unreachable because timestampless seeds
are dropped during extraction, and the helper does raise on an empty
timestamp list, as the last conjunct shows). -/
theorem findRelated_no_usable_timestamp_returns_ok_empty {R : Type}
    [LinearOrder R] (sample : List String → List String)
    (fetch : String → Option RawAsset)
    (searchOracle : Bool → ℚ → ℚ → Finset String)
    (dist : ℚ → ℚ → ℚ → ℚ → R) (windowSec : ℚ) (radius : R)
    (ids : List String) (df : RuleDateFilters)
    (h : ∀ i, (fetch i).bind extractMetadata = none) :
    findRelatedAssets sample fetch searchOracle dist windowSec radius ids df =
      .ok ∅ ∧
    calculateTimeBoundaries windowSec [] df =
      .error ("No valid timestamps found in metadata") := by
  have hfm : ∀ l : List String, fetchAssetMetadata fetch l = [] := by
    intro l
    induction l with
    | nil => rfl
    | cons x xs ih =>
      unfold fetchAssetMetadata at ih ⊢
      simp [List.filterMap_cons, h x, ih]
  constructor
  · unfold findRelatedAssets
    by_cases he : ids.isEmpty
    · simp [he]
    · simp [he, hfm]
  · rfl

/-- Witness for the amended C3 claim at concrete inputs. -/
theorem findRelated_no_usable_timestamp_witness :
    findRelatedAssets (fun l => l) (fun _ => none) (fun _ _ _ => ∅)
      (fun _ _ _ _ => (0 : ℚ)) 14400 100 ["a", "b"] {} = .ok ∅ ∧
    calculateTimeBoundaries 14400 [] {} =
      .error ("No valid timestamps found in metadata") :=
  findRelated_no_usable_timestamp_returns_ok_empty (fun l => l) (fun _ => none)
    (fun _ _ _ => ∅) (fun _ _ _ _ => (0 : ℚ)) 14400 100 ["a", "b"] {}
    (fun _ => rfl)

/-- Inversion of the merge-stage sequencing. -/
theorem MergeRes.bind_ok (r : MergeRes) (f : FilterCondition → MergeRes)
    (a : FilterCondition) (h : r.bind f = .ok a) :
    ∃ b, r = .ok b ∧ f b = .ok a := by
  cases r with
  | fail => exact absurd h (by simp [MergeRes.bind])
  | empty => exact absurd h (by simp [MergeRes.bind])
  | ok b => exact ⟨b, rfl, h⟩

theorem mergeFav_ok_person (c acc a : FilterCondition)
    (h : mergeFav c acc = .ok a) : a.person_ids = acc.person_ids := by
  unfold mergeFav at h
  split at h
  · cases h; rfl
  · split at h
    · simp at h
    · cases h; rfl

theorem mergeTypes_ok_person (c acc a : FilterCondition)
    (h : mergeTypes c acc = .ok a) : a.person_ids = acc.person_ids := by
  unfold mergeTypes at h
  split at h
  · cases h; rfl
  · split at h
    · cases h; rfl
    · dsimp only at h
      split at h
      · simp at h
      · cases h; rfl

theorem mergeMake_ok_person (c acc a : FilterCondition)
    (h : mergeMake c acc = .ok a) : a.person_ids = acc.person_ids := by
  unfold mergeMake at h
  split at h
  · split at h
    · simp at h
    · cases h; rfl
  · cases h; rfl

theorem mergeModel_ok_person (c acc a : FilterCondition)
    (h : mergeModel c acc = .ok a) : a.person_ids = acc.person_ids := by
  unfold mergeModel at h
  split at h
  · split at h
    · simp at h
    · cases h; rfl
  · cases h; rfl

/-- A successful merge step either skips an untruthy person list (leaving the
person list of the accumulator unchanged) or installs a truthy person list into an
accumulator that had none. -/
theorem combineStep_ok_person (acc c a : FilterCondition)
    (h : combineStep acc c = .ok a) :
    (listTruthyS c.person_ids = false ∧ a.person_ids = acc.person_ids) ∨
    (listTruthyS c.person_ids = true ∧ acc.person_ids = none ∧
      a.person_ids = c.person_ids) := by
  unfold combineStep at h
  obtain ⟨b4, hb4, h⟩ := MergeRes.bind_ok _ _ _ h
  obtain ⟨b3, hb3, hb34⟩ := MergeRes.bind_ok _ _ _ hb4
  obtain ⟨b2, hb2, hb23⟩ := MergeRes.bind_ok _ _ _ hb3
  obtain ⟨b1, hb1, hb12⟩ := MergeRes.bind_ok _ _ _ hb2
  have e1 : b1.person_ids = acc.person_ids := mergeFav_ok_person _ _ _ hb1
  have e2 : b2.person_ids = b1.person_ids := mergeTypes_ok_person _ _ _ hb12
  have e3 : b3.person_ids = b2.person_ids := mergeMake_ok_person _ _ _ hb23
  have e4 : b4.person_ids = b3.person_ids := mergeModel_ok_person _ _ _ hb34
  have e14 : b4.person_ids = acc.person_ids := by rw [e4, e3, e2, e1]
  unfold mergePerson at h
  split at h
  · rename_i ht
    split at h
    · simp at h
    · rename_i hn
      right
      cases h
      refine ⟨ht, ?_, rfl⟩
      rw [← e14]
      simpa using hn
  · rename_i ht
    left
    cases h
    exact ⟨by simpa using ht, e14⟩

theorem listTruthyS_ne_none (o : Option (List String))
    (h : listTruthyS o = true) : o ≠ none := by
  cases o with
  | none => simp [listTruthyS] at h
  | some l => simp

/-- Processing the remaining children fails or short-circuits whenever the
truthy person lists still to come, plus the one possibly already in the
accumulator, number at least two. -/
theorem foldSteps_two_person (conds : List FilterCondition) :
    ∀ acc : FilterCondition,
    2 ≤ conds.countP (fun c => listTruthyS c.person_ids) +
      (if acc.person_ids = none then 0 else 1) →
    foldSteps acc conds = .fail ∨ foldSteps acc conds = .empty := by
  induction conds with
  | nil =>
    intro acc h
    exfalso
    rw [List.countP_nil] at h
    split at h
    · omega
    · omega
  | cons c rest ih =>
    intro acc h
    rcases hs : combineStep acc c with _ | _ | a
    · left
      simp [foldSteps, hs]
    · right
      simp [foldSteps, hs]
    · have hred : foldSteps acc (c :: rest) = foldSteps a rest := by
        simp [foldSteps, hs]
      rw [hred]
      apply ih
      rw [List.countP_cons] at h
      rcases combineStep_ok_person acc c a hs with ⟨hf, hpa⟩ | ⟨ht, hnone, hpc⟩
      · rw [hpa]
        rw [hf] at h
        simp at h
        exact h
      · have : a.person_ids ≠ none := by
          rw [hpc]
          exact listTruthyS_ne_none _ ht
        rw [if_neg this]
        rw [ht, hnone] at h
        simp at h
        have h2 : 0 < List.countP (fun c => listTruthyS c.person_ids) rest :=
          List.countP_pos_iff.mpr h
        omega

theorem countP_person_filterMap (cs : List ConditionNode) :
    (cs.filterMap getLeafCond).countP (fun fc => listTruthyS fc.person_ids) =
      cs.countP leafHasNonemptyPersons := by
  induction cs with
  | nil => rfl
  | cons c rest ih =>
    cases c with
    | leaf fc =>
      simp [getLeafCond, leafHasNonemptyPersons, List.filterMap_cons,
        List.countP_cons, ih]
    | and gs =>
      simp [getLeafCond, leafHasNonemptyPersons, List.filterMap_cons,
        List.countP_cons, ih]
    | or gs =>
      simp [getLeafCond, leafHasNonemptyPersons, List.filterMap_cons,
        List.countP_cons, ih]

/-- C5 (amended): if two or more of the children are leaves supplying
NON-EMPTY person-identifier lists, leaf combination never produces a merged
leaf carrying filters: it fails (the node stays unmerged), or — when an
earlier empty asset-type intersection short-circuits first — yields the
permanently-empty all-unset leaf.  (Leaves whose person list is the empty
sentinel do not block merging, as the counterexample shows.) -/
theorem combineAndLeaves_two_nonempty_person_lists (cs : List ConditionNode)
    (h : 2 ≤ cs.countP leafHasNonemptyPersons) :
    combineAndLeaves cs = none ∨ combineAndLeaves cs = some (.leaf {}) := by
  have hcount := countP_person_filterMap cs
  unfold combineAndLeaves
  by_cases hall : cs.all isLeafNode = true
  · rw [if_pos hall]
    have hfold := foldSteps_two_person (cs.filterMap getLeafCond) {} (by
      rw [hcount]
      simpa using h)
    rcases hfold with hf | hf
    · left
      rw [hf]
    · right
      rw [hf]
  · left
    rw [if_neg hall]

/-- Witness for the amended C5 claim: two leaves with distinct non-empty person
lists are not merged into one query-carrying leaf. -/
theorem combineAndLeaves_two_nonempty_person_lists_witness :
    combineAndLeaves leavesC5W = none ∨
    combineAndLeaves leavesC5W = some (.leaf {}) :=
  combineAndLeaves_two_nonempty_person_lists leavesC5W (by decide)

/-- Structural induction for `ConditionNode` with member-wise hypotheses for
the child lists. -/
theorem ConditionNode.recMem (P : ConditionNode → Prop)
    (hl : ∀ c, P (.leaf c))
    (ha : ∀ cs, (∀ c ∈ cs, P c) → P (.and cs))
    (ho : ∀ cs, (∀ c ∈ cs, P c) → P (.or cs)) :
    ∀ t, P t
  | .leaf c => hl c
  | .and cs => ha cs (fun c hc => ConditionNode.recMem P hl ha ho c)
  | .or cs => ho cs (fun c hc => ConditionNode.recMem P hl ha ho c)
termination_by t => sizeOf t
decreasing_by
  · have h1 := List.sizeOf_lt_of_mem hc
    simp only [ConditionNode.and.sizeOf_spec]
    omega
  · have h1 := List.sizeOf_lt_of_mem hc
    simp only [ConditionNode.or.sizeOf_spec]
    omega

theorem optimizeList_eq_map (cs : List ConditionNode) :
    optimizeList cs = cs.map optimize := by
  induction cs with
  | nil => rfl
  | cons c rest ih => simp [optimizeList, ih]

theorem allOptimized_iff (cs : List ConditionNode) :
    allOptimized cs = true ↔ ∀ c ∈ cs, isOptimized c = true := by
  induction cs with
  | nil => simp [allOptimized]
  | cons c rest ih => simp [allOptimized, ih]

theorem combineAndLeaves_some_leaf (cs : List ConditionNode)
    (n : ConditionNode) (h : combineAndLeaves cs = some n) :
    ∃ fc, n = .leaf fc := by
  unfold combineAndLeaves at h
  split at h
  · split at h
    · simp at h
    · rename_i heq
      simp at h
      exact ⟨{}, h.symm⟩
    · rename_i a heq
      simp at h
      exact ⟨a, h.symm⟩
  · simp at h

theorem isOptimized_leaf (fc : FilterCondition) :
    isOptimized (.leaf fc) = true := rfl

/-- Members of `flattenAnd ds` are optimized non-AND nodes whenever all of
`ds` are optimized. -/
theorem flattenAnd_members (ds : List ConditionNode)
    (h : ∀ d ∈ ds, isOptimized d = true) :
    ∀ x ∈ flattenAnd ds, isOptimized x = true ∧ notAndNode x = true := by
  induction ds with
  | nil => simp [flattenAnd]
  | cons d rest ih =>
    have hd := h d (by simp)
    have hrest : ∀ x ∈ flattenAnd rest, isOptimized x = true ∧ notAndNode x = true :=
      ih (fun x hx => h x (by simp [hx]))
    intro x hx
    cases d with
    | leaf fc =>
      replace hx : x ∈ ConditionNode.leaf fc :: flattenAnd rest := hx
      rcases List.mem_cons.mp hx with hx | hx
      · subst hx
        exact ⟨hd, rfl⟩
      · exact hrest x hx
    | or gs =>
      replace hx : x ∈ ConditionNode.or gs :: flattenAnd rest := hx
      rcases List.mem_cons.mp hx with hx | hx
      · subst hx
        exact ⟨hd, rfl⟩
      · exact hrest x hx
    | and gs =>
      replace hx : x ∈ gs ++ flattenAnd rest := hx
      rcases List.mem_append.mp hx with hx | hx
      · unfold isOptimized at hd
        have hgs : allOptimized gs = true ∧ gs.all notAndNode = true := by
          constructor
          · exact (Bool.and_eq_true _ _ |>.mp ((Bool.and_eq_true _ _ |>.mp
              ((Bool.and_eq_true _ _ |>.mp hd).1)).1)).1
          · exact (Bool.and_eq_true _ _ |>.mp ((Bool.and_eq_true _ _ |>.mp hd).1)).2
        constructor
        · exact (allOptimized_iff gs).mp hgs.1 x hx
        · exact List.all_eq_true.mp hgs.2 x hx
      · exact hrest x hx

/-- Members of `flattenOr ds` are optimized non-OR nodes whenever all of
`ds` are optimized. -/
theorem flattenOr_members (ds : List ConditionNode)
    (h : ∀ d ∈ ds, isOptimized d = true) :
    ∀ x ∈ flattenOr ds, isOptimized x = true ∧ notOrNode x = true := by
  induction ds with
  | nil => simp [flattenOr]
  | cons d rest ih =>
    have hd := h d (by simp)
    have hrest : ∀ x ∈ flattenOr rest, isOptimized x = true ∧ notOrNode x = true :=
      ih (fun x hx => h x (by simp [hx]))
    intro x hx
    cases d with
    | leaf fc =>
      replace hx : x ∈ ConditionNode.leaf fc :: flattenOr rest := hx
      rcases List.mem_cons.mp hx with hx | hx
      · subst hx
        exact ⟨hd, rfl⟩
      · exact hrest x hx
    | and gs =>
      replace hx : x ∈ ConditionNode.and gs :: flattenOr rest := hx
      rcases List.mem_cons.mp hx with hx | hx
      · subst hx
        exact ⟨hd, rfl⟩
      · exact hrest x hx
    | or gs =>
      replace hx : x ∈ gs ++ flattenOr rest := hx
      rcases List.mem_append.mp hx with hx | hx
      · unfold isOptimized at hd
        have h1 := (Bool.and_eq_true _ _ |>.mp hd).1
        have hgs : allOptimized gs = true := (Bool.and_eq_true _ _ |>.mp h1).1
        have hno : gs.all notOrNode = true := (Bool.and_eq_true _ _ |>.mp hd).2
        constructor
        · exact (allOptimized_iff gs).mp hgs x hx
        · exact List.all_eq_true.mp hno x hx
      · exact hrest x hx

theorem optimize_and_eq (cs : List ConditionNode) :
    optimize (.and cs) =
      (match combineAndLeaves (flattenAnd (optimizeList cs)) with
       | some n => n
       | none =>
         match flattenAnd (optimizeList cs) with
         | [c] => c
         | [] => .leaf {}
         | _ => .and (flattenAnd (optimizeList cs))) := by
  rw [optimize]

theorem optimize_or_eq (cs : List ConditionNode) :
    optimize (.or cs) =
      (match flattenOr (optimizeList cs) with
       | [c] => c
       | [] => .leaf {}
       | _ => .or (flattenOr (optimizeList cs))) := by
  rw [optimize]

/-- The output of `optimize` satisfies the fixed-point invariant. -/
theorem optimize_isOptimized : ∀ t, isOptimized (optimize t) = true := by
  refine ConditionNode.recMem _ (fun c => rfl) ?_ ?_
  · intro cs hmem
    have hds : ∀ d ∈ optimizeList cs, isOptimized d = true := by
      rw [optimizeList_eq_map]
      intro d hd
      obtain ⟨c, hc, rfl⟩ := List.mem_map.mp hd
      exact hmem c hc
    have hflat := flattenAnd_members _ hds
    rw [optimize_and_eq]
    rcases hcomb : combineAndLeaves (flattenAnd (optimizeList cs)) with _ | n
    · simp only [hcomb]
      rcases hcs2 : flattenAnd (optimizeList cs) with _ | ⟨a, _ | ⟨b, t⟩⟩
      · rfl
      · rw [hcs2] at hflat
        exact (hflat a (by simp)).1
      · rw [hcs2] at hflat hcomb
        show (allOptimized (a :: b :: t) && decide (2 ≤ (a :: b :: t).length) &&
          (a :: b :: t).all notAndNode && (combineAndLeaves (a :: b :: t)).isNone) = true
        simp only [Bool.and_eq_true]
        refine ⟨⟨⟨?_, ?_⟩, ?_⟩, ?_⟩
        · exact (allOptimized_iff _).mpr (fun x hx => (hflat x hx).1)
        · simp
        · exact List.all_eq_true.mpr (fun x hx => (hflat x hx).2)
        · rw [hcomb]
          rfl
    · obtain ⟨fc, rfl⟩ := combineAndLeaves_some_leaf _ _ hcomb
      simp only [hcomb]
      rfl
  · intro cs hmem
    have hds : ∀ d ∈ optimizeList cs, isOptimized d = true := by
      rw [optimizeList_eq_map]
      intro d hd
      obtain ⟨c, hc, rfl⟩ := List.mem_map.mp hd
      exact hmem c hc
    have hflat := flattenOr_members _ hds
    rw [optimize_or_eq]
    rcases hcs2 : flattenOr (optimizeList cs) with _ | ⟨a, _ | ⟨b, t⟩⟩
    · rfl
    · rw [hcs2] at hflat
      exact (hflat a (by simp)).1
    · rw [hcs2] at hflat
      show (allOptimized (a :: b :: t) && decide (2 ≤ (a :: b :: t).length) &&
        (a :: b :: t).all notOrNode) = true
      simp only [Bool.and_eq_true]
      refine ⟨⟨?_, ?_⟩, ?_⟩
      · exact (allOptimized_iff _).mpr (fun x hx => (hflat x hx).1)
      · simp
      · exact List.all_eq_true.mpr (fun x hx => (hflat x hx).2)

theorem flattenAnd_id (cs : List ConditionNode)
    (h : ∀ c ∈ cs, notAndNode c = true) : flattenAnd cs = cs := by
  induction cs with
  | nil => rfl
  | cons c rest ih =>
    have hrest := ih (fun x hx => h x (by simp [hx]))
    cases c with
    | leaf fc =>
      show ConditionNode.leaf fc :: flattenAnd rest = _
      rw [hrest]
    | or gs =>
      show ConditionNode.or gs :: flattenAnd rest = _
      rw [hrest]
    | and gs =>
      have := h (.and gs) (by simp)
      simp [notAndNode] at this

theorem flattenOr_id (cs : List ConditionNode)
    (h : ∀ c ∈ cs, notOrNode c = true) : flattenOr cs = cs := by
  induction cs with
  | nil => rfl
  | cons c rest ih =>
    have hrest := ih (fun x hx => h x (by simp [hx]))
    cases c with
    | leaf fc =>
      show ConditionNode.leaf fc :: flattenOr rest = _
      rw [hrest]
    | and gs =>
      show ConditionNode.and gs :: flattenOr rest = _
      rw [hrest]
    | or gs =>
      have := h (.or gs) (by simp)
      simp [notOrNode] at this

theorem optimizeList_id (cs : List ConditionNode)
    (h : ∀ c ∈ cs, optimize c = c) : optimizeList cs = cs := by
  induction cs with
  | nil => rfl
  | cons c rest ih =>
    have : optimizeList (c :: rest) = optimize c :: optimizeList rest := by
      rw [optimizeList]
    rw [this, h c (by simp), ih (fun x hx => h x (by simp [hx]))]

/-- Nodes satisfying the fixed-point invariant are untouched by `optimize`. -/
theorem isOptimized_fixed : ∀ t, isOptimized t = true → optimize t = t := by
  refine ConditionNode.recMem _ (fun c _ => rfl) ?_ ?_
  · intro cs hmem h
    unfold isOptimized at h
    simp only [Bool.and_eq_true] at h
    obtain ⟨⟨⟨hall, hlen⟩, hnoand⟩, hnone⟩ := h
    have hfix : ∀ c ∈ cs, optimize c = c :=
      fun c hc => hmem c hc ((allOptimized_iff cs).mp hall c hc)
    have e1 : optimizeList cs = cs := optimizeList_id cs hfix
    have e2 : flattenAnd cs = cs :=
      flattenAnd_id cs (List.all_eq_true.mp hnoand)
    have e3 : combineAndLeaves cs = none := by
      rcases hc : combineAndLeaves cs with _ | n
      · rfl
      · rw [hc] at hnone
        simp at hnone
    rw [optimize_and_eq, e1, e2, e3]
    rcases cs with _ | ⟨a, _ | ⟨b, t⟩⟩
    · simp at hlen
    · simp at hlen
    · rfl
  · intro cs hmem h
    unfold isOptimized at h
    simp only [Bool.and_eq_true] at h
    obtain ⟨⟨hall, hlen⟩, hnoor⟩ := h
    have hfix : ∀ c ∈ cs, optimize c = c :=
      fun c hc => hmem c hc ((allOptimized_iff cs).mp hall c hc)
    have e1 : optimizeList cs = cs := optimizeList_id cs hfix
    have e2 : flattenOr cs = cs := flattenOr_id cs (List.all_eq_true.mp hnoor)
    rw [optimize_or_eq, e1, e2]
    rcases cs with _ | ⟨a, _ | ⟨b, t⟩⟩
    · simp at hlen
    · simp at hlen
    · rfl

/-- C6: `optimize` is idempotent under structural equality. -/
theorem optimize_idempotent (t : ConditionNode) :
    optimize (optimize t) = optimize t :=
  isOptimized_fixed (optimize t) (optimize_isOptimized t)

theorem allWf_iff (cs : List ConditionNode) :
    allWf cs = true ↔ ∀ c ∈ cs, wfNode c = true := by
  induction cs with
  | nil => simp [allWf]
  | cons c rest ih => simp [allWf, ih]

theorem allAndFree_iff (cs : List ConditionNode) :
    allAndFree cs = true ↔ ∀ c ∈ cs, andFree c = true := by
  induction cs with
  | nil => simp [allAndFree]
  | cons c rest ih => simp [allAndFree, ih]

theorem evaluate_or_eq (oracle : SearchParams → Finset String)
    (meta : String → Option RawAsset) (cs : List ConditionNode)
    (base : Option (Finset String)) (df : List (String × String)) :
    evaluate oracle meta (.or cs) base df = evalOrList oracle meta cs base df := by
  rw [evaluate]

theorem evalOrList_append (oracle : SearchParams → Finset String)
    (meta : String → Option RawAsset) (xs ys : List ConditionNode)
    (base : Option (Finset String)) (df : List (String × String)) :
    (evalOrList oracle meta (xs ++ ys) base df).1 =
      (evalOrList oracle meta xs base df).1 ∪ (evalOrList oracle meta ys base df).1 := by
  induction xs with
  | nil =>
    show (evalOrList oracle meta ys base df).1 = ∅ ∪ _
    rw [Finset.empty_union]
  | cons x rest ih =>
    show ((evaluate oracle meta x base df).1 ∪
        (evalOrList oracle meta (rest ++ ys) base df).1) = _
    rw [ih]
    show _ = ((evaluate oracle meta x base df).1 ∪
        (evalOrList oracle meta rest base df).1) ∪ _
    rw [Finset.union_assoc]

/-- One-level OR flattening does not change the union of the children. -/
theorem flattenOr_eval (oracle : SearchParams → Finset String)
    (meta : String → Option RawAsset) (ds : List ConditionNode)
    (base : Option (Finset String)) (df : List (String × String)) :
    (evalOrList oracle meta (flattenOr ds) base df).1 =
      (evalOrList oracle meta ds base df).1 := by
  induction ds with
  | nil => rfl
  | cons d rest ih =>
    cases d with
    | leaf fc =>
      show ((evaluate oracle meta (.leaf fc) base df).1 ∪
          (evalOrList oracle meta (flattenOr rest) base df).1) = _
      rw [ih]
      rfl
    | and gs =>
      show ((evaluate oracle meta (.and gs) base df).1 ∪
          (evalOrList oracle meta (flattenOr rest) base df).1) = _
      rw [ih]
      rfl
    | or gs =>
      show (evalOrList oracle meta (gs ++ flattenOr rest) base df).1 = _
      rw [evalOrList_append, ih]
      show _ = ((evaluate oracle meta (.or gs) base df).1 ∪
          (evalOrList oracle meta rest base df).1)
      rw [evaluate_or_eq]

/-- Pointwise-equivalent child lists yield the same OR union. -/
theorem evalOrList_congr (oracle : SearchParams → Finset String)
    (meta : String → Option RawAsset) (cs : List ConditionNode)
    (base : Option (Finset String)) (df : List (String × String))
    (h : ∀ c ∈ cs, (evaluate oracle meta (optimize c) base df).1 =
      (evaluate oracle meta c base df).1) :
    (evalOrList oracle meta (optimizeList cs) base df).1 =
      (evalOrList oracle meta cs base df).1 := by
  induction cs with
  | nil => rfl
  | cons c rest ih =>
    show ((evaluate oracle meta (optimize c) base df).1 ∪
        (evalOrList oracle meta (optimizeList rest) base df).1) = _
    rw [h c (by simp), ih (fun x hx => h x (by simp [hx]))]
    rfl

theorem flattenOr_ne_nil (ds : List ConditionNode) (hne : ds ≠ [])
    (h : ∀ d ∈ ds, isOptimized d = true) : flattenOr ds ≠ [] := by
  rcases ds with _ | ⟨d, rest⟩
  · exact absurd rfl hne
  · cases d with
    | leaf fc => simp [flattenOr]
    | and gs => simp [flattenOr]
    | or gs =>
      have hd := h (.or gs) (by simp)
      unfold isOptimized at hd
      simp only [Bool.and_eq_true] at hd
      obtain ⟨⟨_, hlen⟩, _⟩ := hd
      rcases gs with _ | ⟨a, t⟩
      · simp at hlen
      · show a :: (t ++ flattenOr rest) ≠ []
        simp

/-- C1 (amended): for trees with no AND node (where only OR flattening and
single/zero-child collapse can fire), optimization preserves the evaluated
asset-id set for EVERY oracle, metadata endpoint, base set and date filters.
(With AND nodes the equivalence fails for some oracles, as the
counterexample shows.) -/
theorem optimize_eval_equiv_of_andFree (oracle : SearchParams → Finset String)
    (meta : String → Option RawAsset) (t : ConditionNode)
    (hwf : wfNode t = true) (haf : andFree t = true)
    (base : Option (Finset String)) (df : List (String × String)) :
    (evaluate oracle meta (optimize t) base df).1 =
      (evaluate oracle meta t base df).1 := by
  induction t using ConditionNode.recMem with
  | hl c => rfl
  | ha cs hmem => simp [andFree] at haf
  | ho cs hmem =>
    unfold wfNode at hwf
    unfold andFree at haf
    simp only [Bool.and_eq_true] at hwf
    obtain ⟨hne, hallwf⟩ := hwf
    have hcsne : cs ≠ [] := by
      rcases cs with _ | ⟨c, rest⟩
      · simp at hne
      · simp
    have hpoint : ∀ c ∈ cs, (evaluate oracle meta (optimize c) base df).1 =
        (evaluate oracle meta c base df).1 := fun c hc =>
      hmem c hc ((allWf_iff cs).mp hallwf c hc) ((allAndFree_iff cs).mp haf c hc)
    have hds : ∀ d ∈ optimizeList cs, isOptimized d = true := by
      rw [optimizeList_eq_map]
      intro d hd
      obtain ⟨c, hc, rfl⟩ := List.mem_map.mp hd
      exact optimize_isOptimized c
    have hdsne : optimizeList cs ≠ [] := by
      rw [optimizeList_eq_map]
      rcases cs with _ | ⟨c, rest⟩
      · exact absurd rfl hcsne
      · simp
    have hchain : (evalOrList oracle meta (flattenOr (optimizeList cs)) base df).1 =
        (evaluate oracle meta (.or cs) base df).1 := by
      rw [flattenOr_eval, evalOrList_congr oracle meta cs base df hpoint,
        evaluate_or_eq]
    rw [optimize_or_eq]
    rcases hcs2 : flattenOr (optimizeList cs) with _ | ⟨a, _ | ⟨b, t2⟩⟩
    · exact absurd hcs2 (flattenOr_ne_nil _ hdsne hds)
    · have h1 : (evalOrList oracle meta [a] base df).1 =
          (evaluate oracle meta a base df).1 := by
        show (evaluate oracle meta a base df).1 ∪ (∅ : Finset String) = _
        rw [Finset.union_empty]
      rw [← hchain, hcs2, h1]
    · rw [evaluate_or_eq, ← hchain, hcs2]

/-- Witness for the amended C1 claim on a concrete AND-free tree and oracle. -/
theorem optimize_eval_equiv_of_andFree_witness :
    (evaluate oracleW metaNone (optimize treeW) (some {"w1"}) []).1 =
      (evaluate oracleW metaNone treeW (some {"w1"}) []).1 :=
  optimize_eval_equiv_of_andFree oracleW metaNone treeW rfl rfl (some {"w1"}) []

theorem anySeedClose_iff {R : Type} [LinearOrder R] (dist : ℚ → ℚ → ℚ → ℚ → R)
    (win : ℚ) (rad : R) (c : AssetMetadata) (seeds : List AssetMetadata) :
    anySeedClose dist win rad c seeds = true ↔
      ∃ s ∈ seeds, seedClose dist win rad c s = true := by
  induction seeds with
  | nil => simp [anySeedClose]
  | cons s rest ih =>
    show (seedClose dist win rad c s || anySeedClose dist win rad c rest) = true ↔ _
    rw [Bool.or_eq_true, ih]
    simp

theorem proximityLoop_mem {R : Type} [LinearOrder R] (dist : ℚ → ℚ → ℚ → ℚ → R)
    (win : ℚ) (rad : R) (exactMeta : List AssetMetadata)
    (cands : List AssetMetadata) (a : String) :
    a ∈ proximityLoop dist win rad exactMeta cands ↔
      ∃ c ∈ cands, c.asset_id = a ∧ anySeedClose dist win rad c exactMeta = true := by
  induction cands with
  | nil => simp [proximityLoop]
  | cons c rest ih =>
    show a ∈ (if anySeedClose dist win rad c exactMeta
        then insert c.asset_id (proximityLoop dist win rad exactMeta rest)
        else proximityLoop dist win rad exactMeta rest) ↔ _
    by_cases h : anySeedClose dist win rad c exactMeta = true
    · rw [if_pos h, Finset.mem_insert, ih]
      constructor
      · rintro (rfl | ⟨c2, hc2, ha, hs⟩)
        · exact ⟨c, by simp, rfl, h⟩
        · exact ⟨c2, by simp [hc2], ha, hs⟩
      · rintro ⟨c2, hc2, ha, hs⟩
        rcases List.mem_cons.mp hc2 with rfl | hc2
        · exact Or.inl ha.symm
        · exact Or.inr ⟨c2, hc2, ha, hs⟩
    · rw [if_neg h, ih]
      constructor
      · rintro ⟨c2, hc2, ha, hs⟩
        exact ⟨c2, by simp [hc2], ha, hs⟩
      · rintro ⟨c2, hc2, ha, hs⟩
        rcases List.mem_cons.mp hc2 with rfl | hc2
        · exact absurd hs h
        · exact ⟨c2, hc2, ha, hs⟩

theorem qAbs_eq_abs (q : ℚ) : qAbs q = |q| := by
  unfold qAbs
  split
  · rename_i h
    rw [abs_of_neg h]
  · rename_i h
    rw [abs_of_nonneg (le_of_not_lt h)]

theorem qTruthy_true_iff (o : Option ℚ) :
    qTruthy o = true ↔ ∃ x, o = some x ∧ x ≠ 0 := by
  cases o with
  | none => simp [qTruthy]
  | some x => simp [qTruthy]

theorem seedClose_iff {R : Type} [LinearOrder R] (dist : ℚ → ℚ → ℚ → ℚ → R)
    (win : ℚ) (rad : R) (c s : AssetMetadata) :
    seedClose dist win rad c s = true ↔
      ∃ tc ts0, c.timestamp = some tc ∧ s.timestamp = some ts0 ∧
        |tc - ts0| ≤ win ∧
        (∀ la lo sa so, c.latitude = some la → c.longitude = some lo →
          s.latitude = some sa → s.longitude = some so →
          la ≠ 0 → lo ≠ 0 → sa ≠ 0 → so ≠ 0 → dist la lo sa so ≤ rad) := by
  unfold seedClose
  rcases hct : c.timestamp with _ | tc <;> rcases hst : s.timestamp with _ | ts0 <;>
    simp only [hct, hst]
  · simp
  · simp
  · simp
  · rw [qAbs_eq_abs]
    by_cases htime : |tc - ts0| ≤ win
    · rw [if_pos htime]
      simp only [Option.some.injEq]
      constructor
      · intro h
        refine ⟨tc, ts0, rfl, rfl, htime, ?_⟩
        intro la lo sa so hla hlo hsa hso hz1 hz2 hz3 hz4
        rw [hla, hlo, hsa, hso] at h
        have hq : (qTruthy (some la) && qTruthy (some lo) && qTruthy (some sa) &&
            qTruthy (some so)) = true := by
          simp [qTruthy, hz1, hz2, hz3, hz4]
        rw [if_pos hq] at h
        exact of_decide_eq_true h
      · rintro ⟨tc2, ts2, htc2, hts2, _, hgps⟩
        cases htc2
        cases hts2
        by_cases hq : (qTruthy c.latitude && qTruthy c.longitude &&
            qTruthy s.latitude && qTruthy s.longitude) = true
        · rw [if_pos hq]
          simp only [Bool.and_eq_true] at hq
          obtain ⟨⟨⟨h1, h2⟩, h3⟩, h4⟩ := hq
          obtain ⟨la, hla, hz1⟩ := (qTruthy_true_iff _).mp h1
          obtain ⟨lo, hlo, hz2⟩ := (qTruthy_true_iff _).mp h2
          obtain ⟨sa, hsa, hz3⟩ := (qTruthy_true_iff _).mp h3
          obtain ⟨so, hso, hz4⟩ := (qTruthy_true_iff _).mp h4
          rw [hla, hlo, hsa, hso]
          exact decide_eq_true (hgps la lo sa so hla hlo hsa hso hz1 hz2 hz3 hz4)
        · rw [if_neg hq]
    · rw [if_neg htime]
      simp only [Bool.false_eq_true, false_iff]
      rintro ⟨tc2, ts2, htc2, hts2, ht, _⟩
      cases htc2
      cases hts2
      exact absurd ht htime

/-- C8 (amended): membership in the proximity filter (with the haversine
distance): a candidate is kept iff its fetched metadata has a timestamp and
SOME seed is within the time window, where the haversine/radius check is
imposed only when all four GPS coordinates are present AND nonzero (Python
float truthiness: latitude or longitude 0.0 disables the GPS check). -/
theorem filterByProximity_spec_haversine (windowSec : ℚ) (radius : ℝ)
    (fetch : String → Option RawAsset) (candidates : List String)
    (exactMeta : List AssetMetadata) (a : String) :
    a ∈ filterByProximity haversineDistance windowSec radius fetch candidates
        exactMeta ↔
      ∃ c ∈ fetchAssetMetadata fetch candidates, c.asset_id = a ∧
        ∃ s ∈ exactMeta, ∃ tc ts0, c.timestamp = some tc ∧
          s.timestamp = some ts0 ∧ |tc - ts0| ≤ windowSec ∧
          (∀ la lo sa so, c.latitude = some la → c.longitude = some lo →
            s.latitude = some sa → s.longitude = some so →
            la ≠ 0 → lo ≠ 0 → sa ≠ 0 → so ≠ 0 →
            haversineDistance la lo sa so ≤ radius) := by
  unfold filterByProximity
  rw [proximityLoop_mem]
  simp only [anySeedClose_iff, seedClose_iff]

theorem haversineDistance_meridian_antipode :
    haversineDistance 0 180 0 0 = 6371000 * Real.pi := by
  unfold haversineDistance radiansOf
  have e0 : ((0 : ℚ) : ℝ) = 0 := by norm_num
  have e180 : ((180 : ℚ) : ℝ) = 180 := by norm_num
  rw [e0, e180]
  have r0 : (0 : ℝ) * Real.pi / 180 = 0 := by ring
  have r180 : (180 : ℝ) * Real.pi / 180 = Real.pi := by ring
  rw [r0, r180]
  dsimp only
  have h1 : (0 - 0 : ℝ) / 2 = 0 := by ring
  have h2 : ((0 : ℝ) - Real.pi) / 2 = -(Real.pi / 2) := by ring
  rw [h1, h2, Real.sin_zero, Real.cos_zero, Real.sin_neg, Real.sin_pi_div_two]
  norm_num
  ring

/-- C8 counterexample: candidate "c" sits on the equator (latitude 0) at
longitude 180 and the seed at latitude 0, longitude 0 — all four GPS
coordinates are present and the haversine distance (half of the Earth
circumference away) vastly exceeds the 100 m radius, yet the candidate is kept,
because Python treats the 0.0 coordinate as "no GPS" and skips the check. -/
theorem filterByProximity_gps_zero_counterexample :
    "c" ∈ filterByProximity haversineDistance 3600 (100 : ℝ) fetchC8 ["c"]
        [seedC8] ∧
    fetchAssetMetadata fetchC8 ["c"] = [⟨"c", some 0, some 0, some 180⟩] ∧
    seedC8.latitude = some 0 ∧ seedC8.longitude = some 0 ∧
    (100 : ℝ) < haversineDistance 0 180 0 0 := by
  refine ⟨?_, rfl, rfl, rfl, ?_⟩
  · unfold filterByProximity
    rw [proximityLoop_mem]
    refine ⟨⟨"c", some 0, some 0, some 180⟩, by simp [fetchAssetMetadata,
      fetchC8, extractMetadata], rfl, ?_⟩
    rw [anySeedClose_iff]
    refine ⟨seedC8, by simp, ?_⟩
    rw [seedClose_iff]
    refine ⟨0, 0, rfl, rfl, by norm_num, ?_⟩
    intro la lo sa so hla hlo hsa hso hz1 hz2 hz3 hz4
    injection hla with h0
    exact absurd h0.symm hz1
  · rw [haversineDistance_meridian_antipode]
    nlinarith [Real.pi_gt_three]
